import Mathlib

/-!
Shallow embedding of the QNEthernet datagram channel (`EthernetUDP`,
src/src/QNEthernetUDP.cpp) and raw-frame channel (`EthernetFrameClass`,
src/src/QNEthernetFrame.cpp).

Bytes are modelled as `Nat` (values of `unsigned char`), IPv4 addresses as the
`Nat` value of the lwIP `u32_t`, and a pbuf chain as a `List (List Nat)` of
segment payloads (each segment's `payload[0..len)`), `none` standing for a
null `pbuf *`.  Stack-side outcomes that the code only branches on
(`udp_new`/`pbuf_alloc` success, `udp_bind`/`udp_sendto` results) are passed
in as explicit `Bool` parameters.  `std::vector` capacity reservations are
no-ops in this byte-sequence model: they never change observable contents.
-/

set_option linter.unusedVariables false

namespace QNEthernet

/-- lwIP `INADDR_NONE`. -/
def INADDR_NONE : Nat := 0xFFFFFFFF

/-- One invocation of the stack's transmit primitive `udp_sendto`, recording
the arguments the code actually passed: the pbuf argument (`none` for a null
pointer), the destination address and the destination port. -/
structure SendCall where
  pbuf : Option (List Nat)
  addr : Nat
  port : Nat
  deriving Repr, DecidableEq

/-- The fields of `EthernetUDP` (src/src/QNEthernetUDP.h is not in the tree;
all fields and their initial values appear in the constructor at
QNEthernetUDP.cpp:73-83 except the three DNS-lookup fields, which are
modelled from the spec's Name Resolution Request data model). -/
structure UDPState where
  pcb : Bool            -- pcb_ != nullptr
  inPacket : List Nat   -- inPacket_
  packet : List Nat     -- packet_
  packetPos : Int       -- packetPos_ (int, -1 = none sentinel)
  inAddr : Nat          -- inAddr_ (u32)
  inPort : Nat          -- inPort_ (u16)
  hasOutPacket : Bool   -- hasOutPacket_
  outIpaddr : Nat       -- outIpaddr_ (u32 of ip_addr_t)
  outPort : Nat         -- outPort_ (u16)
  outPacket : List Nat  -- outPacket_
  lookupHost : String   -- lookupHost_
  lookupIP : Nat        -- lookupIP_ (u32)
  lookupFound : Bool    -- lookupFound_
  deriving Repr, DecidableEq

/-- `EthernetUDP::EthernetUDP()` (QNEthernetUDP.cpp:73-83).
Modelled from the spec: the DNS-lookup fields are not touched by the
constructor in the .cpp; per §3 a request starts with no pending hostname,
sentinel "none" address and `found` false. -/
def initUDP : UDPState :=
  { pcb := false, inPacket := [], packet := [], packetPos := -1,
    inAddr := INADDR_NONE, inPort := 0, hasOutPacket := false,
    outIpaddr := 0, outPort := 0, outPacket := [],
    lookupHost := "", lookupIP := INADDR_NONE, lookupFound := false }

namespace EthernetUDP

/-- `EthernetUDP::stop()` (QNEthernetUDP.cpp:142-148). -/
def stop (s : UDPState) : UDPState :=
  if !s.pcb then s else { s with pcb := false }

/-- `EthernetUDP::recvFunc` (QNEthernetUDP.cpp:42-71): `p = none` models a
null `pbuf *` (the code then calls `stop()`); otherwise the packet slot is
overwritten with the concatenation of the chain's segment payloads, and the
sender address/port are recorded. -/
def recvFunc (p : Option (List (List Nat))) (addr : Nat) (port : Nat)
    (s : UDPState) : UDPState :=
  match p with
  | none => stop s
  | some segs =>
      { s with inPacket := segs.flatten, inAddr := addr, inPort := port }

/-- `EthernetUDP::begin(uint16_t)` (QNEthernetUDP.cpp:89-110).
`allocOk` is the outcome of `udp_new()` when `pcb_` is null; `bindOk` is
whether `udp_bind` returns `ERR_OK`. -/
def begin (allocOk bindOk : Bool) (localPort : Nat) (s : UDPState) :
    Bool × UDPState :=
  let s := if !s.pcb then { s with pcb := allocOk } else s
  if !s.pcb then (false, s)
  else if !bindOk then (false, s)
  else (true, s)

/-- `EthernetUDP::beginMulticast` (QNEthernetUDP.cpp:112-140): after ensuring
a pcb, checks `(ip & 0xF0000000) == 0xE0000000` before binding. -/
def beginMulticast (allocOk bindOk : Bool) (ip : Nat) (localPort : Nat)
    (s : UDPState) : Bool × UDPState :=
  let s := if !s.pcb then { s with pcb := allocOk } else s
  if !s.pcb then (false, s)
  else if Nat.land ip 0xF0000000 ≠ 0xE0000000 then (false, s)
  else if !bindOk then (false, s)
  else (true, s)

/-- `EthernetUDP::parsePacket()` (QNEthernetUDP.cpp:154-171): claims the
inbound slot into the active packet, clears the slot, sets the cursor. -/
def parsePacket (s : UDPState) : Nat × UDPState :=
  if !s.pcb then (0, s)
  else
    let s := { s with packet := s.inPacket, inPacket := [] }
    if s.packet.length > 0 then (s.packet.length, { s with packetPos := 0 })
    else (0, { s with packetPos := -1 })

/-- `EthernetUDP::isAvailable()` (QNEthernetUDP.cpp:173-175). -/
def isAvailable (s : UDPState) : Bool :=
  decide (0 ≤ s.packetPos) && decide (s.packetPos < (s.packet.length : Int))

/-- `EthernetUDP::available()` (QNEthernetUDP.cpp:177-182). -/
def available (s : UDPState) : Int :=
  if !isAvailable s then 0 else (s.packet.length : Int) - s.packetPos

/-- `EthernetUDP::read()` (QNEthernetUDP.cpp:184-189): one byte, advancing
the cursor, or -1. -/
def read (s : UDPState) : Int × UDPState :=
  if !isAvailable s then (-1, s)
  else ((s.packet.getD s.packetPos.toNat 0 : Int),
        { s with packetPos := s.packetPos + 1 })

/-- `EthernetUDP::read(char *, size_t)` (QNEthernetUDP.cpp:195-203): copies
`min(len, remaining)` bytes out and advances; result is (count, bytes). -/
def readBuf (len : Nat) (s : UDPState) : Nat × List Nat × UDPState :=
  if len = 0 || !isAvailable s then (0, [], s)
  else
    let n := min len (s.packet.length - s.packetPos.toNat)
    (n, (s.packet.drop s.packetPos.toNat).take n,
     { s with packetPos := s.packetPos + (n : Int) })

/-- `EthernetUDP::peek()` (QNEthernetUDP.cpp:205-210). -/
def peek (s : UDPState) : Int × UDPState :=
  if !isAvailable s then (-1, s)
  else ((s.packet.getD s.packetPos.toNat 0 : Int), s)

/-- `EthernetUDP::flush()` (QNEthernetUDP.cpp:212-214). -/
def flush (s : UDPState) : UDPState :=
  { s with packetPos := -1 }

/-- `EthernetUDP::remoteIP()` (QNEthernetUDP.cpp:216-220). -/
def remoteIP (s : UDPState) : Nat := s.inAddr

/-- `EthernetUDP::remotePort()` (QNEthernetUDP.cpp:222-226). -/
def remotePort (s : UDPState) : Nat := s.inPort

/-- `EthernetUDP::beginPacket(IPAddress, uint16_t)`
(QNEthernetUDP.cpp:232-247).  The source stores `outIpaddr_`, sets
`hasOutPacket_` and clears `outPacket_`; the `port` parameter is never
stored (`outPort_` is not assigned anywhere in the source). -/
def beginPacket (allocOk : Bool) (ip : Nat) (port : Nat) (s : UDPState) :
    Bool × UDPState :=
  let s := if !s.pcb then { s with pcb := allocOk } else s
  if !s.pcb then (false, s)
  else (true, { s with outIpaddr := ip, hasOutPacket := true, outPacket := [] })

/-- `EthernetUDP::endPacket()` (QNEthernetUDP.cpp:276-292).  `pbufAllocOk`
is the outcome of `pbuf_alloc`; `sendOk` is whether `udp_sendto` returns
`ERR_OK`.  The middle component is the `udp_sendto` invocation, if reached.
The source builds `p` holding the staged bytes via `pbuf_take`, but the call
is `udp_sendto(pcb_, nullptr, &outIpaddr_, outPort_)`: a null pbuf is passed,
so the `SendCall`'s pbuf field is `none`, not `some p`. -/
def endPacket (pbufAllocOk sendOk : Bool) (s : UDPState) :
    Bool × Option SendCall × UDPState :=
  if !s.hasOutPacket then (false, none, s)
  else
    let s := { s with hasOutPacket := false }
    if !pbufAllocOk then (false, none, s)
    else
      let p : List Nat := s.outPacket
      let s := { s with outPacket := [] }
      (sendOk, some { pbuf := none, addr := s.outIpaddr, port := s.outPort }, s)

/-- `EthernetUDP::write(uint8_t)` (QNEthernetUDP.cpp:294-301). -/
def write (b : Nat) (s : UDPState) : Nat × UDPState :=
  if !s.hasOutPacket then (0, s)
  else (1, { s with outPacket := s.outPacket ++ [b] })

/-- `EthernetUDP::write(const uint8_t *, size_t)` (QNEthernetUDP.cpp:303-313):
size is clamped to `UINT16_MAX` and that many bytes of `buffer` are appended. -/
def writeBuf (buffer : List Nat) (s : UDPState) : Nat × UDPState :=
  if !s.hasOutPacket || buffer.length == 0 then (0, s)
  else
    let size := if buffer.length > 65535 then 65535 else buffer.length
    (size, { s with outPacket := s.outPacket ++ buffer.take size })

/-- `EthernetUDP::dnsFoundFunc` (QNEthernetUDP.cpp:25-40): ignores a null
`ipaddr`, and publishes the result only when the name still matches the
pending `lookupHost_`. -/
def dnsFoundFunc (name : String) (ipaddr : Option Nat) (s : UDPState) :
    UDPState :=
  match ipaddr with
  | none => s
  | some ip =>
      if s.lookupHost = name then
        { s with lookupIP := ip, lookupFound := true }
      else s

end EthernetUDP

/-- A callback the stack may deliver while the application sits in `delay(10)`
(the Ethernet loop runs from `yield()`): either the DNS found-callback or the
UDP receive callback. -/
inductive CbEv where
  | dnsFound (name : String) (ipaddr : Option Nat)
  | pktRecv (p : Option (List (List Nat))) (addr : Nat) (port : Nat)

/-- Apply one stack callback to the channel state. -/
def applyCb : CbEv → UDPState → UDPState
  | .dnsFound name ipaddr, s => EthernetUDP.dnsFoundFunc name ipaddr s
  | .pktRecv p addr port, s => EthernetUDP.recvFunc p addr port s

/-- Apply a burst of stack callbacks in order. -/
def applyCbs (evs : List CbEv) (s : UDPState) : UDPState :=
  evs.foldl (fun s e => applyCb e s) s

namespace EthernetUDP

/-- The `ERR_INPROGRESS` wait loop of `EthernetUDP::beginPacket(const char *,
uint16_t)` (QNEthernetUDP.cpp:259-264): `do { delay(10); } while (lookupIP_ ==
INADDR_NONE && timer < 2000)`.  `events i` is the burst of stack callbacks
delivered during the i-th `delay(10)`; `timer` is the `elapsedMillis` value,
advancing 10 ms per sleep.  Returns the 1-based index of the last `delay(10)`
performed (= the total number of sleeps when started at `iter = 0`,
`timer = 0`) and the final state. -/
def dnsWaitLoop (events : Nat → List CbEv) (iter timer : Nat) (s : UDPState) :
    Nat × UDPState :=
  if h : (applyCbs (events iter) s).lookupIP = INADDR_NONE ∧ timer + 10 < 2000
  then dnsWaitLoop events (iter + 1) (timer + 10) (applyCbs (events iter) s)
  else (iter + 1, applyCbs (events iter) s)
termination_by 2000 - timer
decreasing_by simp_wf; omega

/-- Result of the `dns_gethostbyname` call. -/
inductive DnsCallResult where
  | ok (addr : Nat)
  | inProgress
  | errArg

/-- `EthernetUDP::beginPacket(const char *, uint16_t)`
(QNEthernetUDP.cpp:249-274).  Returns (result, number of `delay(10)` sleeps
performed, state). -/
def beginPacketHost (dns : DnsCallResult) (events : Nat → List CbEv)
    (allocOk : Bool) (host : String) (port : Nat) (s : UDPState) :
    Bool × Nat × UDPState :=
  let s := { s with lookupHost := host, lookupIP := INADDR_NONE,
                    lookupFound := false }
  match dns with
  | .ok addr =>
      let r := beginPacket allocOk addr port s
      (r.1, 0, r.2)
  | .inProgress =>
      let w := dnsWaitLoop events 0 0 s
      if w.2.lookupFound then
        let r := beginPacket allocOk w.2.lookupIP port w.2
        (r.1, w.1, r.2)
      else (false, w.1, w.2)
  | .errArg => (false, 0, s)

end EthernetUDP

/-- The fields of `EthernetFrameClass`. Modelled from the spec: the header
holding the declarations is not in the tree; per §3 the raw-frame channel is
structurally identical to the datagram channel minus address/port metadata,
with a −1 read-cursor sentinel meaning "no active frame". -/
structure FrameState where
  inFrame : List Nat    -- inFrame_
  frame : List Nat      -- frame_
  framePos : Int        -- framePos_ (-1 = none sentinel)
  hasOutFrame : Bool    -- hasOutFrame_
  outFrame : List Nat   -- outFrame_
  deriving Repr, DecidableEq

/-- Modelled from the spec: initial singleton state — empty buffers, no
active frame (−1 sentinel), staging closed. -/
def initFrame : FrameState :=
  { inFrame := [], frame := [], framePos := -1, hasOutFrame := false,
    outFrame := [] }

namespace EthernetFrameClass

/-- `EthernetFrameClass::recvFunc` (QNEthernetFrame.cpp:30-46): overwrites
the inbound frame slot with the concatenated chain payloads. -/
def recvFunc (segs : List (List Nat)) (s : FrameState) : FrameState :=
  { s with inFrame := segs.flatten }

/-- `EthernetFrameClass::parseFrame()` (QNEthernetFrame.cpp:52-65): claims
the inbound slot, then calls `EthernetClass::loop()` — during which the stack
may deliver a new frame (`loopArrival`) — then sets the cursor from the
claimed frame's size. -/
def parseFrame (loopArrival : Option (List (List Nat))) (s : FrameState) :
    Nat × FrameState :=
  let s := { s with frame := s.inFrame, inFrame := [] }
  let s := match loopArrival with
           | none => s
           | some segs => recvFunc segs s
  if s.frame.length > 0 then (s.frame.length, { s with framePos := 0 })
  else (0, { s with framePos := -1 })

/-- `EthernetFrameClass::isAvailable()` (QNEthernetFrame.cpp:67-69). -/
def isAvailable (s : FrameState) : Bool :=
  decide (0 ≤ s.framePos) && decide (s.framePos < (s.frame.length : Int))

/-- `EthernetFrameClass::available()` (QNEthernetFrame.cpp:71-76). -/
def available (s : FrameState) : Int :=
  if !isAvailable s then 0 else (s.frame.length : Int) - s.framePos

/-- `EthernetFrameClass::read()` (QNEthernetFrame.cpp:78-83). -/
def read (s : FrameState) : Int × FrameState :=
  if !isAvailable s then (-1, s)
  else ((s.frame.getD s.framePos.toNat 0 : Int),
        { s with framePos := s.framePos + 1 })

/-- `EthernetFrameClass::read(char *, size_t)` (QNEthernetFrame.cpp:89-97). -/
def readBuf (len : Nat) (s : FrameState) : Nat × List Nat × FrameState :=
  if len = 0 || !isAvailable s then (0, [], s)
  else
    let n := min len (s.frame.length - s.framePos.toNat)
    (n, (s.frame.drop s.framePos.toNat).take n,
     { s with framePos := s.framePos + (n : Int) })

/-- `EthernetFrameClass::peek()` (QNEthernetFrame.cpp:99-104). -/
def peek (s : FrameState) : Int × FrameState :=
  if !isAvailable s then (-1, s)
  else ((s.frame.getD s.framePos.toNat 0 : Int), s)

/-- `EthernetFrameClass::beginFrame()` (QNEthernetFrame.cpp:110-117). -/
def beginFrame (s : FrameState) : FrameState :=
  { s with hasOutFrame := true, outFrame := [] }

/-- `EthernetFrameClass::endFrame()` (QNEthernetFrame.cpp:140-149): the
middle component is the byte sequence handed to `enet_output_frame`, if the
call was reached; `sendOk` is that primitive's result. -/
def endFrame (sendOk : Bool) (s : FrameState) :
    Bool × Option (List Nat) × FrameState :=
  if !s.hasOutFrame then (false, none, s)
  else
    let s := { s with hasOutFrame := false }
    (sendOk, some s.outFrame, { s with outFrame := [] })

/-- `EthernetFrameClass::write(uint8_t)` (QNEthernetFrame.cpp:155-162). -/
def write (b : Nat) (s : FrameState) : Nat × FrameState :=
  if !s.hasOutFrame then (0, s)
  else (1, { s with outFrame := s.outFrame ++ [b] })

/-- `EthernetFrameClass::write(const uint8_t *, size_t)`
(QNEthernetFrame.cpp:164-174). -/
def writeBuf (buffer : List Nat) (s : FrameState) : Nat × FrameState :=
  if !s.hasOutFrame || buffer.length == 0 then (0, s)
  else
    let size := if buffer.length > 65535 then 65535 else buffer.length
    (size, { s with outFrame := s.outFrame ++ buffer.take size })

end EthernetFrameClass

/-- A public operation on the datagram channel (or a stack callback delivered
to it), used to quantify over arbitrary interleavings. -/
inductive UDPOp where
  | recvOp (segs : List (List Nat)) (addr port : Nat)
  | recvNull
  | parseOp
  | readOne
  | readMany (len : Nat)
  | peekOp
  | flushOp
  | stopOp
  | beginOp (allocOk bindOk : Bool) (localPort : Nat)
  | beginMulticastOp (allocOk bindOk : Bool) (ip localPort : Nat)
  | beginPacketOp (allocOk : Bool) (ip port : Nat)
  | beginPacketHostOp (dns : EthernetUDP.DnsCallResult)
      (events : Nat → List CbEv) (allocOk : Bool) (host : String) (port : Nat)
  | endPacketOp (pbufAllocOk sendOk : Bool)
  | writeOne (b : Nat)
  | writeMany (buffer : List Nat)

/-- State effect of one datagram-channel operation. -/
def applyOp : UDPOp → UDPState → UDPState
  | .recvOp segs addr port, s => EthernetUDP.recvFunc (some segs) addr port s
  | .recvNull, s => EthernetUDP.recvFunc none 0 0 s
  | .parseOp, s => (EthernetUDP.parsePacket s).2
  | .readOne, s => (EthernetUDP.read s).2
  | .readMany len, s => (EthernetUDP.readBuf len s).2.2
  | .peekOp, s => (EthernetUDP.peek s).2
  | .flushOp, s => EthernetUDP.flush s
  | .stopOp, s => EthernetUDP.stop s
  | .beginOp a b lp, s => (EthernetUDP.begin a b lp s).2
  | .beginMulticastOp a b ip lp, s => (EthernetUDP.beginMulticast a b ip lp s).2
  | .beginPacketOp a ip port, s => (EthernetUDP.beginPacket a ip port s).2
  | .beginPacketHostOp dns ev a host port, s =>
      (EthernetUDP.beginPacketHost dns ev a host port s).2.2
  | .endPacketOp a sk, s => (EthernetUDP.endPacket a sk s).2.2
  | .writeOne b, s => (EthernetUDP.write b s).2
  | .writeMany buf, s => (EthernetUDP.writeBuf buf s).2

/-- Run a sequence of datagram-channel operations. -/
def runUDP : List UDPOp → UDPState → UDPState
  | [], s => s
  | op :: ops, s => runUDP ops (applyOp op s)

/-- Whether an operation can overwrite the recorded remote endpoint
(`inAddr_`/`inPort_`): only a receive-callback invocation with a non-null
pbuf does, and `beginPacket(host, port)` may, through receive callbacks
delivered while it sleeps in the DNS wait loop. -/
def UDPOp.overwritesRemote : UDPOp → Bool
  | .recvOp _ _ _ => true
  | .beginPacketHostOp _ _ _ _ _ => true
  | _ => false

/-- A public operation on the raw-frame channel (or a stack callback
delivered to it). -/
inductive FrameOp where
  | recvOp (segs : List (List Nat))
  | parseOp (loopArrival : Option (List (List Nat)))
  | readOne
  | readMany (len : Nat)
  | peekOp
  | beginFrameOp
  | endFrameOp (sendOk : Bool)
  | writeOne (b : Nat)
  | writeMany (buffer : List Nat)

/-- State effect of one frame-channel operation. -/
def applyFrameOp : FrameOp → FrameState → FrameState
  | .recvOp segs, t => EthernetFrameClass.recvFunc segs t
  | .parseOp la, t => (EthernetFrameClass.parseFrame la t).2
  | .readOne, t => (EthernetFrameClass.read t).2
  | .readMany len, t => (EthernetFrameClass.readBuf len t).2.2
  | .peekOp, t => (EthernetFrameClass.peek t).2
  | .beginFrameOp, t => EthernetFrameClass.beginFrame t
  | .endFrameOp sk, t => (EthernetFrameClass.endFrame sk t).2.2
  | .writeOne b, t => (EthernetFrameClass.write b t).2
  | .writeMany buf, t => (EthernetFrameClass.writeBuf buf t).2

/-- Run a sequence of frame-channel operations. -/
def runFrame : List FrameOp → FrameState → FrameState
  | [], t => t
  | op :: ops, t => runFrame ops (applyFrameOp op t)

/-- Read-cursor invariant of the datagram channel: `packetPos_` is the −1
sentinel or lies in `[0, packet_.size()]`. -/
def UDPInv (s : UDPState) : Prop :=
  s.packetPos = -1 ∨ (0 ≤ s.packetPos ∧ s.packetPos ≤ (s.packet.length : Int))

/-- Read-cursor invariant of the raw-frame channel. -/
def FrameInv (t : FrameState) : Prop :=
  t.framePos = -1 ∨ (0 ≤ t.framePos ∧ t.framePos ≤ (t.frame.length : Int))

/-! ## Theorems -/

theorem applyCb_packet_fields (e : CbEv) (s : UDPState) :
    (applyCb e s).packet = s.packet ∧ (applyCb e s).packetPos = s.packetPos := by
  cases e with
  | dnsFound name ip =>
      cases ip with
      | none => exact ⟨rfl, rfl⟩
      | some v =>
          simp only [applyCb, EthernetUDP.dnsFoundFunc]
          split <;> exact ⟨rfl, rfl⟩
  | pktRecv p a po =>
      cases p with
      | none =>
          simp only [applyCb, EthernetUDP.recvFunc, EthernetUDP.stop]
          split <;> exact ⟨rfl, rfl⟩
      | some segs => exact ⟨rfl, rfl⟩

theorem applyCbs_packet_fields (evs : List CbEv) (s : UDPState) :
    (applyCbs evs s).packet = s.packet ∧
    (applyCbs evs s).packetPos = s.packetPos := by
  induction evs generalizing s with
  | nil => exact ⟨rfl, rfl⟩
  | cons e evs ih =>
      have h1 := applyCb_packet_fields e s
      have h2 := ih (applyCb e s)
      exact ⟨h2.1.trans h1.1, h2.2.trans h1.2⟩

theorem dnsWaitLoop_preserves (P : UDPState → Prop)
    (hP : ∀ evs s, P s → P (applyCbs evs s)) (events : Nat → List CbEv) :
    ∀ fuel iter timer s, 2000 - timer ≤ fuel → P s →
      P (EthernetUDP.dnsWaitLoop events iter timer s).2 := by
  intro fuel
  induction fuel with
  | zero =>
      intro iter timer s hf hs
      unfold EthernetUDP.dnsWaitLoop
      rw [dif_neg]
      · exact hP _ _ hs
      · rintro ⟨-, h2⟩; omega
  | succ fuel ih =>
      intro iter timer s hf hs
      unfold EthernetUDP.dnsWaitLoop
      by_cases hc : (applyCbs (events iter) s).lookupIP = INADDR_NONE ∧
          timer + 10 < 2000
      · rw [dif_pos hc]
        obtain ⟨hc1, hc2⟩ := hc
        exact ih _ _ _ (by omega) (hP _ _ hs)
      · rw [dif_neg hc]
        exact hP _ _ hs

theorem dnsWaitLoop_delay_bound (events : Nat → List CbEv) :
    ∀ k iter timer s, 2000 ≤ timer + 10 * k → 1 ≤ k →
      (EthernetUDP.dnsWaitLoop events iter timer s).1 ≤ iter + k := by
  intro k
  induction k with
  | zero => intro iter timer s h h1; omega
  | succ k ih =>
      intro iter timer s h h1
      unfold EthernetUDP.dnsWaitLoop
      by_cases hc : (applyCbs (events iter) s).lookupIP = INADDR_NONE ∧
          timer + 10 < 2000
      · rw [dif_pos hc]
        obtain ⟨hc1, hc2⟩ := hc
        rcases Nat.eq_zero_or_pos k with rfl | hk
        · omega
        · have := ih (iter + 1) (timer + 10) (applyCbs (events iter) s)
            (by omega) hk
          omega
      · rw [dif_neg hc]
        dsimp only
        omega

theorem dnsWaitLoop_no_events (events : Nat → List CbEv)
    (hev : ∀ i, events i = []) :
    ∀ k iter timer s, s.lookupIP = INADDR_NONE → timer + 10 * k = 2000 →
      1 ≤ k → EthernetUDP.dnsWaitLoop events iter timer s = (iter + k, s) := by
  intro k
  induction k with
  | zero => intro _ _ _ _ _ h1; omega
  | succ k ih =>
      intro iter timer s hip ht h1
      have hae : applyCbs (events iter) s = s := by rw [hev iter]; rfl
      unfold EthernetUDP.dnsWaitLoop
      rcases Nat.eq_zero_or_pos k with rfl | hk
      · rw [dif_neg]
        · rw [hae]
        · rw [hae]
          rintro ⟨-, h2⟩
          omega
      · have hc : (applyCbs (events iter) s).lookupIP = INADDR_NONE ∧
            timer + 10 < 2000 := by
          rw [hae]
          exact ⟨hip, by omega⟩
        rw [dif_pos hc, hae, ih (iter + 1) (timer + 10) s hip (by omega) hk]
        have : iter + 1 + k = iter + (k + 1) := by omega
        rw [this]

/-- C5: a buffer `write(buf, size)` with staging open appends exactly the
first `min(size, 65535)` bytes of `buf` to the outbound staging buffer and
returns that count, on both the datagram and the frame channel; the bytes
appended are a prefix of `buf`, so no out-of-bounds access occurs. -/
theorem C5_write_truncation (s : UDPState) (t : FrameState) (buf : List Nat)
    (hs : s.hasOutPacket = true) (ht : t.hasOutFrame = true) :
    (buf.length > 65535 →
      (EthernetUDP.writeBuf buf s).1 = 65535 ∧
      (EthernetUDP.writeBuf buf s).2.outPacket =
        s.outPacket ++ buf.take 65535 ∧
      (EthernetFrameClass.writeBuf buf t).1 = 65535 ∧
      (EthernetFrameClass.writeBuf buf t).2.outFrame =
        t.outFrame ++ buf.take 65535) ∧
    (buf.length ≤ 65535 →
      (EthernetUDP.writeBuf buf s).1 = buf.length ∧
      (EthernetUDP.writeBuf buf s).2.outPacket = s.outPacket ++ buf ∧
      (EthernetFrameClass.writeBuf buf t).1 = buf.length ∧
      (EthernetFrameClass.writeBuf buf t).2.outFrame = t.outFrame ++ buf) := by
  constructor
  · intro hgt
    have hne : (buf.length == 0) = false := by
      simp only [beq_eq_false_iff_ne, ne_eq]
      omega
    simp only [EthernetUDP.writeBuf, EthernetFrameClass.writeBuf, hs, ht,
      Bool.not_true, Bool.false_or, hne, Bool.false_eq_true, if_false,
      if_pos hgt]
    exact ⟨trivial, trivial, trivial, trivial⟩
  · intro hle
    by_cases hb : buf.length = 0
    · have hnil : buf = [] := List.length_eq_zero.mp hb
      subst hnil
      simp [EthernetUDP.writeBuf, EthernetFrameClass.writeBuf]
    · have hne : (buf.length == 0) = false := by
        simp only [beq_eq_false_iff_ne, ne_eq]
        omega
      have hngt : ¬ buf.length > 65535 := by omega
      simp only [EthernetUDP.writeBuf, EthernetFrameClass.writeBuf, hs, ht,
        Bool.not_true, Bool.false_or, hne, Bool.false_eq_true, if_false,
        if_neg hngt, List.take_length]
      exact ⟨trivial, trivial, trivial, trivial⟩

/-- C5 witness: concrete instantiation of the two branches of
`C5_write_truncation`. -/
theorem C5_write_truncation_witness :
    (EthernetUDP.writeBuf (List.replicate 70000 7)
      { initUDP with hasOutPacket := true }).1 = 65535 ∧
    (EthernetFrameClass.writeBuf [1, 2, 3]
      { initFrame with hasOutFrame := true }).2.outFrame = [1, 2, 3] := by
  constructor
  · exact ((C5_write_truncation { initUDP with hasOutPacket := true }
      { initFrame with hasOutFrame := true } (List.replicate 70000 7)
      rfl rfl).1 (by rw [List.length_replicate]; omega)).1
  · have h := ((C5_write_truncation { initUDP with hasOutPacket := true }
      { initFrame with hasOutFrame := true } [1, 2, 3] rfl rfl).2
      (by norm_num)).2.2.2
    simpa using h

/-- C7: when data is available, `peek` leaves the state (hence the read
cursor) unchanged, two consecutive `peek`s agree, and a following `read`
returns the peeked byte and advances the cursor by exactly one — on both the
datagram and the frame channel. -/
theorem C7_peek_read (s : UDPState) (t : FrameState)
    (hs : EthernetUDP.isAvailable s = true)
    (ht : EthernetFrameClass.isAvailable t = true) :
    (EthernetUDP.peek s).2 = s ∧
    (EthernetUDP.peek (EthernetUDP.peek s).2).1 = (EthernetUDP.peek s).1 ∧
    (EthernetUDP.read s).1 = (EthernetUDP.peek s).1 ∧
    (EthernetUDP.read s).2.packetPos = s.packetPos + 1 ∧
    (EthernetFrameClass.peek t).2 = t ∧
    (EthernetFrameClass.peek (EthernetFrameClass.peek t).2).1 =
      (EthernetFrameClass.peek t).1 ∧
    (EthernetFrameClass.read t).1 = (EthernetFrameClass.peek t).1 ∧
    (EthernetFrameClass.read t).2.framePos = t.framePos + 1 := by
  have hps : (EthernetUDP.peek s).2 = s := by
    unfold EthernetUDP.peek
    split <;> rfl
  have hpt : (EthernetFrameClass.peek t).2 = t := by
    unfold EthernetFrameClass.peek
    split <;> rfl
  refine ⟨hps, by rw [hps], ?_, ?_, hpt, by rw [hpt], ?_, ?_⟩ <;>
    simp [EthernetUDP.peek, EthernetUDP.read, EthernetFrameClass.peek,
      EthernetFrameClass.read, hs, ht]

/-- C7 witness: a channel holding packet `[42, 7]` at cursor 0. -/
theorem C7_peek_read_witness :
    (EthernetUDP.read
      { initUDP with packet := [42, 7], packetPos := 0 }).1 =
      (EthernetUDP.peek
        { initUDP with packet := [42, 7], packetPos := 0 }).1 ∧
    (EthernetFrameClass.read
      { initFrame with frame := [9], framePos := 0 }).2.framePos = 0 + 1 := by
  have h := C7_peek_read
    { initUDP with packet := [42, 7], packetPos := 0 }
    { initFrame with frame := [9], framePos := 0 } (by decide) (by decide)
  exact ⟨h.2.2.1, h.2.2.2.2.2.2.2⟩

/-- C8: on a bound datagram channel whose inbound slot is empty (nothing has
arrived since the last claim), `parsePacket` returns 0, availability is then
false (`available` returns 0), and `read`/`peek` return −1 without changing
the state; likewise `parseFrame` on the frame channel (regardless of what
arrives during its `EthernetClass::loop()` call, since the slot was claimed
before the loop runs). -/
theorem C8_parse_nothing (s : UDPState) (t : FrameState)
    (la : Option (List (List Nat)))
    (hpcb : s.pcb = true) (hin : s.inPacket = []) (htin : t.inFrame = []) :
    (EthernetUDP.parsePacket s).1 = 0 ∧
    EthernetUDP.isAvailable (EthernetUDP.parsePacket s).2 = false ∧
    EthernetUDP.available (EthernetUDP.parsePacket s).2 = 0 ∧
    (EthernetUDP.read (EthernetUDP.parsePacket s).2).1 = -1 ∧
    (EthernetUDP.read (EthernetUDP.parsePacket s).2).2 =
      (EthernetUDP.parsePacket s).2 ∧
    (EthernetUDP.peek (EthernetUDP.parsePacket s).2).1 = -1 ∧
    (EthernetFrameClass.parseFrame la t).1 = 0 ∧
    EthernetFrameClass.isAvailable (EthernetFrameClass.parseFrame la t).2 =
      false ∧
    EthernetFrameClass.available (EthernetFrameClass.parseFrame la t).2 = 0 ∧
    (EthernetFrameClass.read (EthernetFrameClass.parseFrame la t).2).1 = -1 ∧
    (EthernetFrameClass.read (EthernetFrameClass.parseFrame la t).2).2 =
      (EthernetFrameClass.parseFrame la t).2 ∧
    (EthernetFrameClass.peek (EthernetFrameClass.parseFrame la t).2).1 =
      -1 := by
  have hu : EthernetUDP.parsePacket s =
      (0, { s with packet := [], inPacket := [], packetPos := -1 }) := by
    unfold EthernetUDP.parsePacket
    rw [hpcb, hin]
    rfl
  have hf : (EthernetFrameClass.parseFrame la t).1 = 0 ∧
      (EthernetFrameClass.parseFrame la t).2.frame = [] ∧
      (EthernetFrameClass.parseFrame la t).2.framePos = -1 := by
    unfold EthernetFrameClass.parseFrame
    cases la <;> simp [htin, EthernetFrameClass.recvFunc]
  have hfa : EthernetFrameClass.isAvailable
      (EthernetFrameClass.parseFrame la t).2 = false := by
    unfold EthernetFrameClass.isAvailable
    rw [hf.2.2]
    rfl
  rw [hu]
  refine ⟨rfl, rfl, rfl, rfl, rfl, rfl, hf.1, hfa, ?_, ?_, ?_, ?_⟩
  · unfold EthernetFrameClass.available
    rw [hfa]
    rfl
  · unfold EthernetFrameClass.read
    rw [hfa]
    rfl
  · unfold EthernetFrameClass.read
    rw [hfa]
    rfl
  · unfold EthernetFrameClass.peek
    rw [hfa]
    rfl

/-- C8 witness: a freshly bound channel (pcb held, no arrival) and the
singleton frame channel in its initial state. -/
theorem C8_parse_nothing_witness :
    (EthernetUDP.parsePacket { initUDP with pcb := true }).1 = 0 ∧
    (EthernetFrameClass.peek
      (EthernetFrameClass.parseFrame none initFrame).2).1 = -1 := by
  have h := C8_parse_nothing { initUDP with pcb := true } initFrame none
    rfl rfl rfl
  exact ⟨h.1, h.2.2.2.2.2.2.2.2.2.2.2⟩

/-- C9: `endPacket`/`endFrame` clear the staging-open flag before attempting
the send, for every alloc/send outcome; afterwards `write` returns 0, a
second `endPacket`/`endFrame` returns false and reaches no transmit call, so
at most one send is attempted per `beginPacket`/`beginFrame`. -/
theorem C9_end_closes_staging (s : UDPState) (t : FrameState)
    (hs : s.hasOutPacket = true) (ht : t.hasOutFrame = true)
    (aOk sOk aOk2 sOk2 fOk fOk2 : Bool) (b : Nat) (buf : List Nat) :
    (EthernetUDP.endPacket aOk sOk s).2.2.hasOutPacket = false ∧
    (EthernetUDP.write b (EthernetUDP.endPacket aOk sOk s).2.2).1 = 0 ∧
    (EthernetUDP.writeBuf buf (EthernetUDP.endPacket aOk sOk s).2.2).1 = 0 ∧
    (EthernetUDP.endPacket aOk2 sOk2 (EthernetUDP.endPacket aOk sOk s).2.2).1
      = false ∧
    (EthernetUDP.endPacket aOk2 sOk2
      (EthernetUDP.endPacket aOk sOk s).2.2).2.1 = none ∧
    (EthernetFrameClass.endFrame fOk t).2.2.hasOutFrame = false ∧
    (EthernetFrameClass.write b (EthernetFrameClass.endFrame fOk t).2.2).1
      = 0 ∧
    (EthernetFrameClass.writeBuf buf
      (EthernetFrameClass.endFrame fOk t).2.2).1 = 0 ∧
    (EthernetFrameClass.endFrame fOk2
      (EthernetFrameClass.endFrame fOk t).2.2).1 = false ∧
    (EthernetFrameClass.endFrame fOk2
      (EthernetFrameClass.endFrame fOk t).2.2).2.1 = none := by
  have hu : (EthernetUDP.endPacket aOk sOk s).2.2.hasOutPacket = false := by
    unfold EthernetUDP.endPacket
    rw [hs]
    cases aOk <;> rfl
  have hfr : (EthernetFrameClass.endFrame fOk t).2.2.hasOutFrame = false := by
    unfold EthernetFrameClass.endFrame
    rw [ht]
    rfl
  have hwu : ∀ (b : Nat) (u : UDPState), u.hasOutPacket = false →
      EthernetUDP.write b u = (0, u) := by
    intro b u h
    unfold EthernetUDP.write
    rw [h]
    rfl
  have hwbu : ∀ (buf : List Nat) (u : UDPState), u.hasOutPacket = false →
      EthernetUDP.writeBuf buf u = (0, u) := by
    intro buf u h
    unfold EthernetUDP.writeBuf
    rw [h]
    rfl
  have heu : ∀ (a k : Bool) (u : UDPState), u.hasOutPacket = false →
      EthernetUDP.endPacket a k u = (false, none, u) := by
    intro a k u h
    unfold EthernetUDP.endPacket
    rw [h]
    rfl
  have hwf : ∀ (b : Nat) (u : FrameState), u.hasOutFrame = false →
      EthernetFrameClass.write b u = (0, u) := by
    intro b u h
    unfold EthernetFrameClass.write
    rw [h]
    rfl
  have hwbf : ∀ (buf : List Nat) (u : FrameState), u.hasOutFrame = false →
      EthernetFrameClass.writeBuf buf u = (0, u) := by
    intro buf u h
    unfold EthernetFrameClass.writeBuf
    rw [h]
    rfl
  have hef : ∀ (k : Bool) (u : FrameState), u.hasOutFrame = false →
      EthernetFrameClass.endFrame k u = (false, none, u) := by
    intro k u h
    unfold EthernetFrameClass.endFrame
    rw [h]
    rfl
  refine ⟨hu, ?_, ?_, ?_, ?_, hfr, ?_, ?_, ?_, ?_⟩
  · rw [hwu b _ hu]
  · rw [hwbu buf _ hu]
  · rw [heu aOk2 sOk2 _ hu]
  · rw [heu aOk2 sOk2 _ hu]
  · rw [hwf b _ hfr]
  · rw [hwbf buf _ hfr]
  · rw [hef fOk2 _ hfr]
  · rw [hef fOk2 _ hfr]

/-- C9 witness: staging open with one staged byte, successful first send. -/
theorem C9_end_closes_staging_witness :
    (EthernetUDP.endPacket true true
      { initUDP with hasOutPacket := true, outPacket := [1] }).2.2.hasOutPacket
      = false ∧
    (EthernetFrameClass.endFrame false
      { initFrame with hasOutFrame := true }).2.2.hasOutFrame = false := by
  have h := C9_end_closes_staging
    { initUDP with hasOutPacket := true, outPacket := [1] }
    { initFrame with hasOutFrame := true } rfl rfl
    true true false false false true 3 [1, 2]
  exact ⟨h.1, h.2.2.2.2.2.1⟩


/-- C4: latest-wins — delivering P1 then P2 with no intervening
`parsePacket` produces exactly the state that delivering P2 alone would
have produced (so nothing of P1, bytes or sender, is observable ever
after), and the next `parsePacket` claims P2: it returns `len(P2)` and
exposes P2's bytes and P2's sender. -/
theorem C4_latest_wins (s : UDPState) (segs1 segs2 : List (List Nat))
    (a1 p1 a2 p2 : Nat) (hpcb : s.pcb = true) (hne : segs2.flatten ≠ []) :
    EthernetUDP.recvFunc (some segs2) a2 p2
        (EthernetUDP.recvFunc (some segs1) a1 p1 s) =
      EthernetUDP.recvFunc (some segs2) a2 p2 s ∧
    (EthernetUDP.parsePacket (EthernetUDP.recvFunc (some segs2) a2 p2
        (EthernetUDP.recvFunc (some segs1) a1 p1 s))).1 =
      segs2.flatten.length ∧
    (EthernetUDP.parsePacket (EthernetUDP.recvFunc (some segs2) a2 p2
        (EthernetUDP.recvFunc (some segs1) a1 p1 s))).2.packet =
      segs2.flatten ∧
    (EthernetUDP.parsePacket (EthernetUDP.recvFunc (some segs2) a2 p2
        (EthernetUDP.recvFunc (some segs1) a1 p1 s))).2.packetPos = 0 ∧
    EthernetUDP.remoteIP (EthernetUDP.parsePacket
        (EthernetUDP.recvFunc (some segs2) a2 p2
          (EthernetUDP.recvFunc (some segs1) a1 p1 s))).2 = a2 ∧
    EthernetUDP.remotePort (EthernetUDP.parsePacket
        (EthernetUDP.recvFunc (some segs2) a2 p2
          (EthernetUDP.recvFunc (some segs1) a1 p1 s))).2 = p2 := by
  have hover : EthernetUDP.recvFunc (some segs2) a2 p2
      (EthernetUDP.recvFunc (some segs1) a1 p1 s) =
      EthernetUDP.recvFunc (some segs2) a2 p2 s := rfl
  have hlen : 0 < segs2.flatten.length := List.length_pos.mpr hne
  have hparse : EthernetUDP.parsePacket
      (EthernetUDP.recvFunc (some segs2) a2 p2 s) =
      (segs2.flatten.length,
       { s with packet := segs2.flatten, inPacket := [], inAddr := a2,
                inPort := p2, packetPos := 0 }) := by
    unfold EthernetUDP.parsePacket EthernetUDP.recvFunc
    rw [hpcb]
    simp only [Bool.not_true, Bool.false_eq_true, if_false]
    rw [if_pos hlen]
  rw [hover, hparse]
  exact ⟨rfl, rfl, rfl, rfl, rfl, rfl⟩

/-- C4 witness: P1 = [1,2] from 5:7, P2 = [3] from 8:9 on a bound channel. -/
theorem C4_latest_wins_witness :
    (EthernetUDP.parsePacket (EthernetUDP.recvFunc (some [[3]]) 8 9
        (EthernetUDP.recvFunc (some [[1, 2]]) 5 7
          { initUDP with pcb := true }))).1 = 1 ∧
    EthernetUDP.remoteIP (EthernetUDP.parsePacket
        (EthernetUDP.recvFunc (some [[3]]) 8 9
          (EthernetUDP.recvFunc (some [[1, 2]]) 5 7
            { initUDP with pcb := true }))).2 = 8 := by
  have h := C4_latest_wins { initUDP with pcb := true } [[1, 2]] [[3]]
    5 7 8 9 rfl (by decide)
  exact ⟨h.2.1, h.2.2.2.2.1⟩

/-- C1 (code-bug evaluation): the frame path delivers the staged bytes
exactly — `beginFrame(); write([0xAA,0xBB]); endFrame()` hands
`enet_output_frame` exactly `[0xAA, 0xBB]` — but the datagram path does not:
after `beginPacket(0x0A000005, 9000); write([0xAA]); endPacket()`, the
`udp_sendto` invocation receives a null pbuf (not the staged byte sequence
`[0xAA]`) and destination port 0 (not the 9000 given to `beginPacket`),
because the source passes `nullptr` in place of the built pbuf `p` and never
assigns `outPort_`. -/
theorem C1_transmit_bytes_eval :
    (EthernetFrameClass.endFrame true
      (EthernetFrameClass.writeBuf [0xAA, 0xBB]
        (EthernetFrameClass.beginFrame initFrame)).2).2.1 =
      some [0xAA, 0xBB] ∧
    (EthernetUDP.endPacket true true
      (EthernetUDP.writeBuf [0xAA]
        (EthernetUDP.beginPacket true 0x0A000005 9000 initUDP).2).2).2.1 =
      some { pbuf := none, addr := 0x0A000005, port := 0 } ∧
    some { pbuf := none, addr := 0x0A000005, port := 0 } ≠
      some ({ pbuf := some [0xAA], addr := 0x0A000005, port := 9000 }
        : SendCall) := by
  refine ⟨by decide, by decide, by decide⟩

/-- C2 counterexample: claim packet [1,2] from sender 5:1000 (parsePacket
returns 2); then packet [3] from 9:2000 arrives with no further parsePacket.
The claim says remoteAddress/remotePort keep reporting 5/1000 until a later
parsePacket claims another packet, but they now report 9/2000. -/
theorem C2_counterexample :
    (EthernetUDP.parsePacket (EthernetUDP.recvFunc (some [[1, 2]]) 5 1000
        { initUDP with pcb := true })).1 = 2 ∧
    EthernetUDP.remoteIP (EthernetUDP.recvFunc (some [[3]]) 9 2000
        (EthernetUDP.parsePacket (EthernetUDP.recvFunc (some [[1, 2]]) 5 1000
          { initUDP with pcb := true })).2) = 9 ∧
    EthernetUDP.remotePort (EthernetUDP.recvFunc (some [[3]]) 9 2000
        (EthernetUDP.parsePacket (EthernetUDP.recvFunc (some [[1, 2]]) 5 1000
          { initUDP with pcb := true })).2) = 2000 ∧
    (9 : Nat) ≠ 5 ∧ (2000 : Nat) ≠ 1000 := by
  refine ⟨by decide, by decide, by decide, by decide, by decide⟩

/-- C2 (amended): after a packet from sender `(a, p)` is delivered and
claimed by `parsePacket`, `remoteAddress`/`remotePort` report exactly
`(a, p)`, and keep reporting it across any further operations that do not
run the receive callback with a new packet (a new arrival — not a later
`parsePacket` — is what supersedes the reported sender). -/
theorem C2_remote_reports_claimed_sender (s : UDPState)
    (segs : List (List Nat)) (a p : Nat) (ops : List UDPOp)
    (hops : ∀ op ∈ ops, op.overwritesRemote = false) :
    EthernetUDP.remoteIP (runUDP ops
      (EthernetUDP.parsePacket
        (EthernetUDP.recvFunc (some segs) a p s)).2) = a ∧
    EthernetUDP.remotePort (runUDP ops
      (EthernetUDP.parsePacket
        (EthernetUDP.recvFunc (some segs) a p s)).2) = p := by
  have hparse_fields : ∀ u : UDPState,
      (EthernetUDP.parsePacket u).2.inAddr = u.inAddr ∧
      (EthernetUDP.parsePacket u).2.inPort = u.inPort := by
    intro u
    unfold EthernetUDP.parsePacket
    split
    · exact ⟨rfl, rfl⟩
    · dsimp only
      split <;> exact ⟨rfl, rfl⟩
  have hstep : ∀ (op : UDPOp) (u : UDPState), op.overwritesRemote = false →
      (applyOp op u).inAddr = u.inAddr ∧ (applyOp op u).inPort = u.inPort := by
    intro op u hop
    cases op with
    | recvOp segs addr port =>
        exact absurd hop (by simp [UDPOp.overwritesRemote])
    | recvNull =>
        simp only [applyOp, EthernetUDP.recvFunc, EthernetUDP.stop]
        split <;> exact ⟨rfl, rfl⟩
    | parseOp => exact hparse_fields u
    | readOne =>
        simp only [applyOp, EthernetUDP.read]
        split <;> exact ⟨rfl, rfl⟩
    | readMany len =>
        simp only [applyOp, EthernetUDP.readBuf]
        split <;> exact ⟨rfl, rfl⟩
    | peekOp =>
        simp only [applyOp, EthernetUDP.peek]
        split <;> exact ⟨rfl, rfl⟩
    | flushOp => exact ⟨rfl, rfl⟩
    | stopOp =>
        simp only [applyOp, EthernetUDP.stop]
        split <;> exact ⟨rfl, rfl⟩
    | beginOp aOk bOk lp =>
        simp only [applyOp, EthernetUDP.begin]
        repeat' split
        all_goals exact ⟨rfl, rfl⟩
    | beginMulticastOp aOk bOk ip lp =>
        simp only [applyOp, EthernetUDP.beginMulticast]
        repeat' split
        all_goals exact ⟨rfl, rfl⟩
    | beginPacketOp aOk ip port =>
        simp only [applyOp, EthernetUDP.beginPacket]
        repeat' split
        all_goals exact ⟨rfl, rfl⟩
    | beginPacketHostOp dns ev aOk host port =>
        exact absurd hop (by simp [UDPOp.overwritesRemote])
    | endPacketOp aOk sOk =>
        simp only [applyOp, EthernetUDP.endPacket]
        split
        · exact ⟨rfl, rfl⟩
        · split <;> exact ⟨rfl, rfl⟩
    | writeOne b =>
        simp only [applyOp, EthernetUDP.write]
        split <;> exact ⟨rfl, rfl⟩
    | writeMany buf =>
        simp only [applyOp, EthernetUDP.writeBuf]
        split <;> exact ⟨rfl, rfl⟩
  have hbase : (EthernetUDP.parsePacket
      (EthernetUDP.recvFunc (some segs) a p s)).2.inAddr = a ∧
      (EthernetUDP.parsePacket
        (EthernetUDP.recvFunc (some segs) a p s)).2.inPort = p :=
    hparse_fields (EthernetUDP.recvFunc (some segs) a p s)
  have hrun : ∀ (l : List UDPOp) (u : UDPState),
      (∀ op ∈ l, op.overwritesRemote = false) →
      (runUDP l u).inAddr = u.inAddr ∧ (runUDP l u).inPort = u.inPort := by
    intro l
    induction l with
    | nil => intro u _; exact ⟨rfl, rfl⟩
    | cons op l ih =>
        intro u hl
        have h1 := hstep op u (hl op (List.mem_cons_self op l))
        have h2 := ih (applyOp op u)
          (fun o ho => hl o (List.mem_cons_of_mem op ho))
        exact ⟨h2.1.trans h1.1, h2.2.trans h1.2⟩
  have h := hrun ops
    (EthernetUDP.parsePacket (EthernetUDP.recvFunc (some segs) a p s)).2 hops
  exact ⟨h.1.trans hbase.1, h.2.trans hbase.2⟩

/-- C2 (amended) witness: claim [1,2] from 5:1000, then parse again and
read — the reported sender stays 5:1000. -/
theorem C2_remote_reports_claimed_sender_witness :
    EthernetUDP.remoteIP (runUDP [UDPOp.parseOp, UDPOp.readOne]
      (EthernetUDP.parsePacket
        (EthernetUDP.recvFunc (some [[1, 2]]) 5 1000
          { initUDP with pcb := true })).2) = 5 ∧
    EthernetUDP.remotePort (runUDP [UDPOp.parseOp, UDPOp.readOne]
      (EthernetUDP.parsePacket
        (EthernetUDP.recvFunc (some [[1, 2]]) 5 1000
          { initUDP with pcb := true })).2) = 1000 :=
  C2_remote_reports_claimed_sender { initUDP with pcb := true } [[1, 2]]
    5 1000 [UDPOp.parseOp, UDPOp.readOne] (by decide)

/-- C3 counterexample: first-time `begin` on a channel with a null handle,
with allocation succeeding and the bind failing, returns false but leaves
the freshly allocated control block held (handle non-null), contradicting
the claim that after any first-time failure the handle is still null. -/
theorem C3_counterexample :
    (EthernetUDP.begin true false 5000 initUDP).1 = false ∧
    (EthernetUDP.begin true false 5000 initUDP).2.pcb = true := by
  refine ⟨by decide, by decide⟩

/-- C3 (amended): on a first-time `begin`/`beginMulticast` (null handle),
the call fails iff allocation, the multicast check (for `beginMulticast`),
or the bind fails; after the call the handle is null exactly when allocation
failed — a bind failure or a non-multicast address leaves the freshly
allocated control block held. -/
theorem C3_first_time_failure (allocOk bindOk : Bool) (ip lp : Nat)
    (s : UDPState) (h : s.pcb = false) :
    (EthernetUDP.begin allocOk bindOk lp s).1 = (allocOk && bindOk) ∧
    (EthernetUDP.begin allocOk bindOk lp s).2.pcb = allocOk ∧
    (EthernetUDP.beginMulticast allocOk bindOk ip lp s).1 =
      (allocOk && decide (Nat.land ip 0xF0000000 = 0xE0000000) && bindOk) ∧
    (EthernetUDP.beginMulticast allocOk bindOk ip lp s).2.pcb = allocOk := by
  cases allocOk with
  | false =>
      refine ⟨?_, ?_, ?_, ?_⟩ <;>
        simp [EthernetUDP.begin, EthernetUDP.beginMulticast, h]
  | true =>
      by_cases hm : Nat.land ip 0xF0000000 = 0xE0000000 <;>
        cases bindOk <;>
          refine ⟨?_, ?_, ?_, ?_⟩ <;>
            simp [EthernetUDP.begin, EthernetUDP.beginMulticast, h, hm]

/-- C3 (amended) witness: successful alloc, failing bind, multicast group
239.0.0.1 (0xEF000001). -/
theorem C3_first_time_failure_witness :
    (EthernetUDP.begin true false 5000 initUDP).2.pcb = true ∧
    (EthernetUDP.beginMulticast true false 0xEF000001 5000 initUDP).1 =
      (true && decide (Nat.land 0xEF000001 0xF0000000 = 0xE0000000) &&
        false) := by
  have h := C3_first_time_failure true false 0xEF000001 5000 initUDP rfl
  exact ⟨h.2.1, h.2.2.1⟩


/-- C6: `beginPacket(host, port)` never waits unboundedly: when
`dns_gethostbyname` reports `ERR_OK` it performs zero `delay(10)` sleeps;
for every resolver outcome and every pattern of stack callbacks it performs
at most 200 sleeps (the fixed 2000 ms timeout at the fixed 10 ms polling
interval); and when the resolution never completes (no callback ever fires)
it performs exactly 200 sleeps (≈2000 ms) and returns false. -/
theorem C6_dns_wait_bounded (events : Nat → List CbEv) (allocOk : Bool)
    (host : String) (port addr : Nat) (s : UDPState)
    (hev : ∀ i, events i = []) :
    (EthernetUDP.beginPacketHost (.ok addr) events allocOk host port s).2.1
      = 0 ∧
    (∀ (dns : EthernetUDP.DnsCallResult) (ev2 : Nat → List CbEv),
      (EthernetUDP.beginPacketHost dns ev2 allocOk host port s).2.1 ≤ 200) ∧
    (EthernetUDP.beginPacketHost .inProgress events allocOk host port s).1
      = false ∧
    (EthernetUDP.beginPacketHost .inProgress events allocOk host port s).2.1
      = 200 := by
  have hw := dnsWaitLoop_no_events events hev 200 0 0
    { s with lookupHost := host, lookupIP := INADDR_NONE,
             lookupFound := false } rfl (by norm_num) (by norm_num)
  refine ⟨rfl, ?_, ?_, ?_⟩
  · intro dns ev2
    cases dns with
    | ok a2 => exact Nat.zero_le _
    | errArg => exact Nat.zero_le _
    | inProgress =>
        have hb := dnsWaitLoop_delay_bound ev2 200 0 0
          { s with lookupHost := host, lookupIP := INADDR_NONE,
                   lookupFound := false } (by norm_num) (by norm_num)
        simp only [EthernetUDP.beginPacketHost]
        split <;> dsimp only <;> omega
  · simp only [EthernetUDP.beginPacketHost]
    rw [hw]
    simp
  · simp only [EthernetUDP.beginPacketHost]
    rw [hw]
    simp

/-- C6 witness: no callback ever fires; the already-resolved form sleeps 0
times, the in-progress form sleeps exactly 200 times. -/
theorem C6_dns_wait_bounded_witness :
    (EthernetUDP.beginPacketHost (.ok 7) (fun _ => []) true "example" 80
      initUDP).2.1 = 0 ∧
    (EthernetUDP.beginPacketHost .inProgress (fun _ => []) true "example" 80
      initUDP).2.1 = 200 := by
  have h := C6_dns_wait_bounded (fun _ => []) true "example" 80 7 initUDP
    (fun _ => rfl)
  exact ⟨h.1, h.2.2.2⟩


theorem isAvailable_eq_true_iff (s : UDPState) :
    EthernetUDP.isAvailable s = true ↔
      0 ≤ s.packetPos ∧ s.packetPos < (s.packet.length : Int) := by
  simp [EthernetUDP.isAvailable]

theorem frame_isAvailable_eq_true_iff (t : FrameState) :
    EthernetFrameClass.isAvailable t = true ↔
      0 ≤ t.framePos ∧ t.framePos < (t.frame.length : Int) := by
  simp [EthernetFrameClass.isAvailable]

theorem beginPacket_packet_fields (a : Bool) (ip port : Nat) (u : UDPState) :
    (EthernetUDP.beginPacket a ip port u).2.packet = u.packet ∧
    (EthernetUDP.beginPacket a ip port u).2.packetPos = u.packetPos := by
  simp only [EthernetUDP.beginPacket]
  repeat' split
  all_goals exact ⟨rfl, rfl⟩

theorem beginPacketHost_packet_fields (dns : EthernetUDP.DnsCallResult)
    (ev : Nat → List CbEv) (a : Bool) (host : String) (port : Nat)
    (s : UDPState) :
    (EthernetUDP.beginPacketHost dns ev a host port s).2.2.packet =
      s.packet ∧
    (EthernetUDP.beginPacketHost dns ev a host port s).2.2.packetPos =
      s.packetPos := by
  cases dns with
  | ok addr =>
      exact beginPacket_packet_fields a addr port
        { s with lookupHost := host, lookupIP := INADDR_NONE,
                 lookupFound := false }
  | errArg => exact ⟨rfl, rfl⟩
  | inProgress =>
      have hp := dnsWaitLoop_preserves
        (fun u => u.packet = s.packet ∧ u.packetPos = s.packetPos)
        (fun evs u hu => by
          have h := applyCbs_packet_fields evs u
          exact ⟨h.1.trans hu.1, h.2.trans hu.2⟩)
        ev 2000 0 0
        { s with lookupHost := host, lookupIP := INADDR_NONE,
                 lookupFound := false }
        (by omega) ⟨rfl, rfl⟩
      simp only [EthernetUDP.beginPacketHost]
      split
      · have hb := beginPacket_packet_fields a
          (EthernetUDP.dnsWaitLoop ev 0 0
            { s with lookupHost := host, lookupIP := INADDR_NONE,
                     lookupFound := false }).2.lookupIP port
          (EthernetUDP.dnsWaitLoop ev 0 0
            { s with lookupHost := host, lookupIP := INADDR_NONE,
                     lookupFound := false }).2
        exact ⟨hb.1.trans hp.1, hb.2.trans hp.2⟩
      · exact hp

theorem applyOp_preserves_inv (op : UDPOp) (s : UDPState) (h : UDPInv s) :
    UDPInv (applyOp op s) := by
  cases op with
  | recvOp segs addr port => exact h
  | recvNull =>
      simp only [applyOp, EthernetUDP.recvFunc, EthernetUDP.stop]
      split <;> exact h
  | parseOp =>
      simp only [applyOp, EthernetUDP.parsePacket]
      split
      · exact h
      · split
        · next hlen =>
            refine Or.inr ⟨le_refl 0, ?_⟩
            show (0 : Int) ≤ (s.inPacket.length : Int)
            omega
        · exact Or.inl rfl
  | readOne =>
      simp only [applyOp, EthernetUDP.read]
      split
      · exact h
      · next hc =>
          have hav : EthernetUDP.isAvailable s = true := by
            revert hc
            cases hx : EthernetUDP.isAvailable s <;> simp
          obtain ⟨h1, h2⟩ := (isAvailable_eq_true_iff s).mp hav
          refine Or.inr ⟨?_, ?_⟩
          · show (0 : Int) ≤ s.packetPos + 1
            omega
          · show s.packetPos + 1 ≤ (s.packet.length : Int)
            omega
  | readMany len =>
      simp only [applyOp, EthernetUDP.readBuf]
      split
      · exact h
      · next hc =>
          rw [Bool.or_eq_true] at hc
          push_neg at hc
          obtain ⟨-, hc2⟩ := hc
          have hav : EthernetUDP.isAvailable s = true := by
            revert hc2
            cases hx : EthernetUDP.isAvailable s <;> simp
          obtain ⟨h1, h2⟩ := (isAvailable_eq_true_iff s).mp hav
          have hmin : min len (s.packet.length - s.packetPos.toNat) ≤
              s.packet.length - s.packetPos.toNat := Nat.min_le_right _ _
          refine Or.inr ⟨?_, ?_⟩
          · show (0 : Int) ≤ s.packetPos +
              ((min len (s.packet.length - s.packetPos.toNat) : Nat) : Int)
            omega
          · show s.packetPos +
              ((min len (s.packet.length - s.packetPos.toNat) : Nat) : Int) ≤
              (s.packet.length : Int)
            omega
  | peekOp =>
      simp only [applyOp, EthernetUDP.peek]
      split <;> exact h
  | flushOp => exact Or.inl rfl
  | stopOp =>
      simp only [applyOp, EthernetUDP.stop]
      split <;> exact h
  | beginOp a b lp =>
      simp only [applyOp, EthernetUDP.begin]
      repeat' split
      all_goals exact h
  | beginMulticastOp a b ip lp =>
      simp only [applyOp, EthernetUDP.beginMulticast]
      repeat' split
      all_goals exact h
  | beginPacketOp a ip port =>
      simp only [applyOp, EthernetUDP.beginPacket]
      repeat' split
      all_goals exact h
  | beginPacketHostOp dns ev a host port =>
      have hf := beginPacketHost_packet_fields dns ev a host port s
      simp only [UDPInv, applyOp, hf.1, hf.2]
      exact h
  | endPacketOp a sk =>
      simp only [applyOp, EthernetUDP.endPacket]
      repeat' split
      all_goals exact h
  | writeOne b =>
      simp only [applyOp, EthernetUDP.write]
      split <;> exact h
  | writeMany buf =>
      simp only [applyOp, EthernetUDP.writeBuf]
      split <;> exact h

theorem runUDP_preserves_inv (ops : List UDPOp) (s : UDPState)
    (h : UDPInv s) : UDPInv (runUDP ops s) := by
  induction ops generalizing s with
  | nil => exact h
  | cons op ops ih => exact ih (applyOp op s) (applyOp_preserves_inv op s h)

theorem applyFrameOp_preserves_inv (op : FrameOp) (t : FrameState)
    (h : FrameInv t) : FrameInv (applyFrameOp op t) := by
  cases op with
  | recvOp segs => exact h
  | parseOp la =>
      cases la with
      | none =>
          simp only [applyFrameOp, EthernetFrameClass.parseFrame]
          split
          · next hlen =>
              refine Or.inr ⟨le_refl 0, ?_⟩
              show (0 : Int) ≤ (t.inFrame.length : Int)
              omega
          · exact Or.inl rfl
      | some segs =>
          simp only [applyFrameOp, EthernetFrameClass.parseFrame,
            EthernetFrameClass.recvFunc]
          split
          · next hlen =>
              refine Or.inr ⟨le_refl 0, ?_⟩
              show (0 : Int) ≤ (t.inFrame.length : Int)
              omega
          · exact Or.inl rfl
  | readOne =>
      simp only [applyFrameOp, EthernetFrameClass.read]
      split
      · exact h
      · next hc =>
          have hav : EthernetFrameClass.isAvailable t = true := by
            revert hc
            cases hx : EthernetFrameClass.isAvailable t <;> simp
          obtain ⟨h1, h2⟩ := (frame_isAvailable_eq_true_iff t).mp hav
          refine Or.inr ⟨?_, ?_⟩
          · show (0 : Int) ≤ t.framePos + 1
            omega
          · show t.framePos + 1 ≤ (t.frame.length : Int)
            omega
  | readMany len =>
      simp only [applyFrameOp, EthernetFrameClass.readBuf]
      split
      · exact h
      · next hc =>
          rw [Bool.or_eq_true] at hc
          push_neg at hc
          obtain ⟨-, hc2⟩ := hc
          have hav : EthernetFrameClass.isAvailable t = true := by
            revert hc2
            cases hx : EthernetFrameClass.isAvailable t <;> simp
          obtain ⟨h1, h2⟩ := (frame_isAvailable_eq_true_iff t).mp hav
          have hmin : min len (t.frame.length - t.framePos.toNat) ≤
              t.frame.length - t.framePos.toNat := Nat.min_le_right _ _
          refine Or.inr ⟨?_, ?_⟩
          · show (0 : Int) ≤ t.framePos +
              ((min len (t.frame.length - t.framePos.toNat) : Nat) : Int)
            omega
          · show t.framePos +
              ((min len (t.frame.length - t.framePos.toNat) : Nat) : Int) ≤
              (t.frame.length : Int)
            omega
  | peekOp =>
      simp only [applyFrameOp, EthernetFrameClass.peek]
      split <;> exact h
  | beginFrameOp => exact h
  | endFrameOp sk =>
      simp only [applyFrameOp, EthernetFrameClass.endFrame]
      repeat' split
      all_goals exact h
  | writeOne b =>
      simp only [applyFrameOp, EthernetFrameClass.write]
      split <;> exact h
  | writeMany buf =>
      simp only [applyFrameOp, EthernetFrameClass.writeBuf]
      split <;> exact h

theorem runFrame_preserves_inv (ops : List FrameOp) (t : FrameState)
    (h : FrameInv t) : FrameInv (runFrame ops t) := by
  induction ops generalizing t with
  | nil => exact h
  | cons op ops ih =>
      exact ih (applyFrameOp op t) (applyFrameOp_preserves_inv op t h)

/-- C10: after any sequence of operations, on either channel, the read
cursor is the −1 sentinel or lies in `[0, length of the active
packet/frame]`; `available()` is never negative, equals length − cursor
when the cursor is valid (availability check true) and 0 otherwise; and
whenever `read()`/`peek()` index the active buffer, the index is strictly
inside it. -/
theorem C10_cursor_invariant :
    (∀ ops : List UDPOp, UDPInv (runUDP ops initUDP)) ∧
    (∀ fops : List FrameOp, FrameInv (runFrame fops initFrame)) ∧
    (∀ s : UDPState, EthernetUDP.isAvailable s = true →
      s.packetPos.toNat < s.packet.length) ∧
    (∀ s : UDPState, 0 ≤ EthernetUDP.available s) ∧
    (∀ s : UDPState, EthernetUDP.isAvailable s = true →
      EthernetUDP.available s = (s.packet.length : Int) - s.packetPos) ∧
    (∀ s : UDPState, EthernetUDP.isAvailable s = false →
      EthernetUDP.available s = 0) ∧
    (∀ t : FrameState, EthernetFrameClass.isAvailable t = true →
      t.framePos.toNat < t.frame.length) ∧
    (∀ t : FrameState, 0 ≤ EthernetFrameClass.available t) ∧
    (∀ t : FrameState, EthernetFrameClass.isAvailable t = true →
      EthernetFrameClass.available t = (t.frame.length : Int) - t.framePos) ∧
    (∀ t : FrameState, EthernetFrameClass.isAvailable t = false →
      EthernetFrameClass.available t = 0) := by
  refine ⟨fun ops => runUDP_preserves_inv ops initUDP (Or.inl rfl),
    fun fops => runFrame_preserves_inv fops initFrame (Or.inl rfl),
    ?_, ?_, ?_, ?_, ?_, ?_, ?_, ?_⟩
  · intro s hs
    obtain ⟨h1, h2⟩ := (isAvailable_eq_true_iff s).mp hs
    omega
  · intro s
    unfold EthernetUDP.available
    split
    · exact le_refl 0
    · next hc =>
        have hav : EthernetUDP.isAvailable s = true := by
          revert hc
          cases hx : EthernetUDP.isAvailable s <;> simp
        obtain ⟨h1, h2⟩ := (isAvailable_eq_true_iff s).mp hav
        omega
  · intro s hs
    simp [EthernetUDP.available, hs]
  · intro s hs
    simp [EthernetUDP.available, hs]
  · intro t ht
    obtain ⟨h1, h2⟩ := (frame_isAvailable_eq_true_iff t).mp ht
    omega
  · intro t
    unfold EthernetFrameClass.available
    split
    · exact le_refl 0
    · next hc =>
        have hav : EthernetFrameClass.isAvailable t = true := by
          revert hc
          cases hx : EthernetFrameClass.isAvailable t <;> simp
        obtain ⟨h1, h2⟩ := (frame_isAvailable_eq_true_iff t).mp hav
        omega
  · intro t ht
    simp [EthernetFrameClass.available, ht]
  · intro t ht
    simp [EthernetFrameClass.available, ht]

/-- C10 witness: a concrete run (receive, claim, read one byte) on each
channel, and the `available` characterization at the resulting states. -/
theorem C10_cursor_invariant_witness :
    UDPInv (runUDP [UDPOp.recvOp [[1, 2]] 5 9, UDPOp.parseOp, UDPOp.readOne]
      initUDP) ∧
    FrameInv (runFrame [FrameOp.recvOp [[4]], FrameOp.parseOp none]
      initFrame) ∧
    EthernetUDP.available { initUDP with packet := [1, 2], packetPos := 1 } =
      (([1, 2] : List Nat).length : Int) - 1 := by
  refine ⟨C10_cursor_invariant.1 _, C10_cursor_invariant.2.1 _, ?_⟩
  have h := C10_cursor_invariant.2.2.2.2.1
    { initUDP with packet := [1, 2], packetPos := 1 } (by decide)
  simpa using h

end QNEthernet
